import Mathlib

/-!
Verification of the kkmodbus Modbus-TCP client tools.

The two Python scripts (`kkmodbus-readwrite.py` and `kkmodbus-enum.py`) are
shallowly embedded below. Byte strings are `List Nat` (each entry a byte
value); Python exceptions are modelled with `Except PyExc`; Python `None`
becomes `Option.none`; Python truthiness of a bytes-or-None value is made
explicit. The nondeterministic outcome of the socket operations of a worker
(connect / send / recv, each of which may raise) is abstracted into an
`Outcome` value that is either a raised exception or the received response
bytes; everything after the `recv` is embedded line by line from the source.
-/

namespace Kkmodbus

/-- The Python exceptions that the embedded code can raise. -/
inductive PyExc
  | structError
  | indexError
  | unsupportedWriteCode
  | unsupportedCode
  | configError
  | oserror
  deriving DecidableEq, Repr

/-- `struct.pack('>H', v)`: two big-endian bytes; raises `struct.error`
outside `[0, 65535]` (values are nonnegative `Nat`s here). -/
def packU16 (v : Nat) : Except PyExc (List Nat) :=
  if v < 65536 then .ok [v / 256, v % 256] else .error .structError

/-- `struct.pack('>HHHBBH', t, p, l, u, f, a)`: the 10-byte MBAP header plus
function code plus one 16-bit field; raises `struct.error` when any field is
out of range. -/
def pack_HHHBBH (t p l u f a : Nat) : Except PyExc (List Nat) :=
  if t < 65536 ∧ p < 65536 ∧ l < 65536 ∧ u < 256 ∧ f < 256 ∧ a < 65536 then
    .ok [t / 256, t % 256, p / 256, p % 256, l / 256, l % 256, u, f, a / 256, a % 256]
  else .error .structError

/-- `build_modbus_request` of `kkmodbus-readwrite.py` (lines 13-28): with a
value, only function codes 5 and 6 are accepted; without a value, only the
read codes 1-4; anything else raises. -/
def build_modbus_request (trans_id unit_id function_code address : Nat)
    (value : Option Nat) (count : Nat) : Except PyExc (List Nat) :=
  match value with
  | some v =>
    if function_code = 5 ∨ function_code = 6 then do
      let head ← pack_HHHBBH trans_id 0 6 unit_id function_code address
      let tail ← packU16 v
      .ok (head ++ tail)
    else .error .unsupportedWriteCode
  | none =>
    if function_code = 1 ∨ function_code = 2 ∨ function_code = 3 ∨ function_code = 4 then do
      let head ← pack_HHHBBH trans_id 0 6 unit_id function_code address
      let tail ← packU16 count
      .ok (head ++ tail)
    else .error .unsupportedCode

/-- `build_modbus_request` of `kkmodbus-enum.py` (lines 14-20): always packs
the header, then appends the count field only for read codes 1-4; it never
rejects a function code. -/
def build_modbus_request_enum (trans_id unit_id function_code address count : Nat) :
    Except PyExc (List Nat) := do
  let head ← pack_HHHBBH trans_id 0 6 unit_id function_code address
  if function_code = 1 ∨ function_code = 2 ∨ function_code = 3 ∨ function_code = 4 then do
    let tail ← packU16 count
    .ok (head ++ tail)
  else .ok head

/-- The five fields unpacked by `struct.unpack('>HHHBB', response[:8])`. -/
structure MbapHeader where
  trans_id : Nat
  protocol_id : Nat
  length : Nat
  unit_id : Nat
  function_code : Nat
  deriving DecidableEq, Repr

/-- `struct.unpack('>HHHBB', r[:8])` (callers guard `r.length ≥ 8`). -/
def unpack_HHHBB (r : List Nat) : MbapHeader :=
  { trans_id := r.getD 0 0 * 256 + r.getD 1 0
    protocol_id := r.getD 2 0 * 256 + r.getD 3 0
    length := r.getD 4 0 * 256 + r.getD 5 0
    unit_id := r.getD 6 0
    function_code := r.getD 7 0 }

/-- `parse_modbus_response` of `kkmodbus-readwrite.py` (lines 30-43).
`response[8]` is a checked index: on a response of exactly 8 bytes with a
read function code it raises `IndexError`. `.ok none` is Python `None`,
`.ok (some data)` is a returned bytes payload. Slices are total as in
Python. -/
def parse_modbus_response (response : List Nat) : Except PyExc (Option (List Nat)) :=
  if response.length < 8 then .ok none
  else if 0x80 ≤ (unpack_HHHBB response).function_code then .ok none
  else if (unpack_HHHBB response).function_code = 1 ∨
      (unpack_HHHBB response).function_code = 2 ∨
      (unpack_HHHBB response).function_code = 3 ∨
      (unpack_HHHBB response).function_code = 4 then
    if 8 < response.length then
      .ok (some ((response.drop 9).take (response.getD 8 0)))
    else .error .indexError
  else if (unpack_HHHBB response).function_code = 5 ∨
      (unpack_HHHBB response).function_code = 6 then
    .ok (some ((response.drop 8).take 4))
  else .ok none

/-- `parse_modbus_response` of `kkmodbus-enum.py` (lines 22-33): requires at
least 9 bytes up front, handles only read codes, and never raises. -/
def parse_modbus_response_enum (response : List Nat) : Option (List Nat) :=
  if response.length < 9 then none
  else if 0x80 ≤ (unpack_HHHBB response).function_code then none
  else if (unpack_HHHBB response).function_code = 1 ∨
      (unpack_HHHBB response).function_code = 2 ∨
      (unpack_HHHBB response).function_code = 3 ∨
      (unpack_HHHBB response).function_code = 4 then
    some ((response.drop 9).take (response.getD 8 0))
  else none

/-- Python truthiness of the `data` variable (`bytes` or `None`): `None` and
the empty bytes are falsy. -/
def truthy : Option (List Nat) → Bool
  | none => false
  | some l => !l.isEmpty

/-- The four Modbus data-object types handled by both tools
(`'hr'`, `'ir'`, `'coil'`, `'di'`). -/
inductive DataType
  | hr
  | ir
  | coil
  | di
  deriving DecidableEq, Repr

/-- The `operation` argument of `read_or_write_data` (`main` only ever passes
`'read'` or `'write'`). -/
inductive Operation
  | read
  | write
  deriving DecidableEq, Repr

/-- `base_address` chosen in `main` of `kkmodbus-readwrite.py`
(lines 175-191); logical addresses are Python ints, hence `Int`. -/
def base_address : DataType → Int
  | .hr => 40001
  | .ir => 30001
  | .coil => 1
  | .di => 10001

/-- `function_code_read` chosen in `main` (lines 175-191). -/
def function_code_read : DataType → Nat
  | .hr => 3
  | .ir => 4
  | .coil => 1
  | .di => 2

/-- `function_code_write` chosen in `main` (lines 175-191); `None` for the
read-only types. -/
def function_code_write : DataType → Option Nat
  | .hr => some 6
  | .ir => none
  | .coil => some 5
  | .di => none

/-- What `main` decides for one (data type, logical address, operation)
triple before submitting a work item. -/
inductive MapResult
  | unsupported
  | skipped
  | ok (protocolAddress : Int) (functionCode : Nat)
  deriving DecidableEq, Repr

/-- The address-mapping logic of `main` (lines 175-208): a write against a
type with no write code is rejected first (with the printed notice
`Cannot write to ...`); then `protocol_address = logical_address -
base_address` and any negative protocol address is skipped with no record;
otherwise the work item proceeds with the operation's function code. -/
def mapAddress (dt : DataType) (logical_address : Int) (op : Operation) : MapResult :=
  match op with
  | .write =>
    match function_code_write dt with
    | none => .unsupported
    | some fc =>
      if logical_address - base_address dt < 0 then .skipped
      else .ok (logical_address - base_address dt) fc
  | .read =>
    if logical_address - base_address dt < 0 then .skipped
    else .ok (logical_address - base_address dt) (function_code_read dt)

/-- The outcome of one RESULT-record of a worker. In the source the records
are formatted strings; each carries exactly the slave id, data type, logical
address and one of these outcomes. -/
inductive RecordOutcome
  | readValue (v : Nat)
  | readBit (b : Nat)
  | written
  | failed
  deriving DecidableEq, Repr

/-- One entry appended to a slave's `results` list. -/
structure ResultRecord where
  unit_id : Nat
  data_type : DataType
  logical_address : Int
  outcome : RecordOutcome
  deriving DecidableEq, Repr

/-- The abstracted behaviour of the socket phase of a worker: either some
socket operation (connect / send / recv, or building the request) raised, or
`recv` returned these response bytes. -/
inductive Outcome
  | raises
  | returns (response : List Nat)

/-- `struct.unpack('>H', data[:2])[0]`: big-endian 16-bit value from the
first two payload bytes (callers guard `data.length ≥ 2`). -/
def unpack_be16 (data : List Nat) : Nat :=
  data.getD 0 0 * 256 + data.getD 1 0

/-- The records produced by the read branch of `read_or_write_data`
(lines 65-72) for a truthy payload: registers report a 16-bit value only when
at least 2 bytes arrived (1-byte payloads append nothing); bit types report
`data[0] & 0x01`. -/
def rw_read_records (unit_id : Nat) (dt : DataType) (la : Int) (data : List Nat) :
    List ResultRecord :=
  match dt with
  | .hr | .ir =>
    if 2 ≤ data.length then [⟨unit_id, dt, la, .readValue (unpack_be16 data)⟩] else []
  | .coil | .di => [⟨unit_id, dt, la, .readBit (data.getD 0 0 &&& 0x01)⟩]

/-- The body of `read_or_write_data` in `kkmodbus-readwrite.py`
(lines 46-79), i.e. everything inside the `try`. A transport `Outcome.raises`
propagates out of the body; so does an `IndexError` from
`parse_modbus_response`. On paths that raise, `sock.close()` (line 62) is
never executed, hence the `Bool` (socket closed) in the result. -/
def worker_body (unit_id : Nat) (dt : DataType) (la : Int) (op : Operation)
    (outcome : Outcome) : Except PyExc (List ResultRecord × Bool) :=
  match outcome with
  | .raises => .error .oserror
  | .returns response => do
    let data ← parse_modbus_response response
    match op with
    | .read =>
      if truthy data then .ok (rw_read_records unit_id dt la (data.getD []), true)
      else .ok ([⟨unit_id, dt, la, .failed⟩], true)
    | .write =>
      if truthy data then .ok ([⟨unit_id, dt, la, .written⟩], true)
      else .ok ([⟨unit_id, dt, la, .failed⟩], true)

/-- `read_or_write_data` (lines 45-81): the `except Exception: pass` at the
end swallows every exception of the body, appending nothing; on those paths
the socket was not closed. -/
def read_or_write_data (unit_id : Nat) (dt : DataType) (la : Int) (op : Operation)
    (outcome : Outcome) : List ResultRecord × Bool :=
  match worker_body unit_id dt la op outcome with
  | .error _ => ([], false)
  | .ok r => r

/-- The bit expansion of `read_data` in `kkmodbus-enum.py` (lines 52-55):
every payload byte is expanded into its 8 bits, least-significant first. -/
def bits_of_byte (b : Nat) : List Nat :=
  (List.range 8).map (fun i => (b >>> i) &&& 1)

/-- The full `bits` list built from the payload (lines 52-55). -/
def bits_of_data (data : List Nat) : List Nat :=
  (data.map bits_of_byte).flatten

/-- `read_data` of `kkmodbus-enum.py` (lines 35-60): its parse never raises,
so on any received response the socket is closed; a falsy payload appends
nothing (there is no `else` branch, so this tool never records a failure);
registers need ≥ 2 bytes; bit types take `bits[0]`. -/
def read_data (unit_id : Nat) (dt : DataType) (la : Int) (outcome : Outcome) :
    List ResultRecord × Bool :=
  match outcome with
  | .raises => ([], false)
  | .returns response =>
    match parse_modbus_response_enum response with
    | none => ([], true)
    | some data =>
      if data.isEmpty then ([], true)
      else
        match dt with
        | .hr | .ir =>
          (if 2 ≤ data.length then [⟨unit_id, dt, la, .readValue (unpack_be16 data)⟩]
           else [], true)
        | .coil | .di =>
          let bits := bits_of_data data
          (if bits.isEmpty then [] else [⟨unit_id, dt, la, .readBit (bits.getD 0 0)⟩], true)

/-- One expanded work item of a slave's batch. -/
structure WorkItem where
  unit_id : Nat
  data_type : DataType
  logical_address : Int
  op : Operation
  deriving DecidableEq, Repr

/-- The records a single work item contributes, given its own socket
outcome. -/
def item_records (p : WorkItem × Outcome) : List ResultRecord :=
  (read_or_write_data p.1.unit_id p.1.data_type p.1.logical_address p.1.op p.2).1

/-- A slave's batch: every worker appends its records to the shared
`slave_results` list; the list after all items of the batch completed. -/
def run_batch (items : List (WorkItem × Outcome)) : List ResultRecord :=
  items.foldl (fun acc p => acc ++ item_records p) []

/-- `total_addresses` of `main` (line 149): the number of selected addresses
summed over all data types, in their given order. -/
def total_addresses (data_types : List (DataType × List Int)) : Nat :=
  (data_types.map (fun p => p.2.length)).sum

/-- The per-value checks of `main` (lines 158-162): coil values must be 0 or
1, holding-register values must lie in `[0, 65535]`; a violation calls
`parser.error`, which aborts the run. -/
def validate_one (dt : DataType) (v : Int) : Except PyExc Int :=
  if dt = .coil ∧ ¬(v = 0 ∨ v = 1) then .error .configError
  else if dt = .hr ∧ ¬(0 ≤ v ∧ v ≤ 65535) then .error .configError
  else .ok v

/-- The values consumed for one data type (the inner loop of
lines 155-164). -/
def validate_dt (dt : DataType) : List Int → Except PyExc (List Int)
  | [] => .ok []
  | v :: rest => do
    let v' ← validate_one dt v
    let rest' ← validate_dt dt rest
    .ok (v' :: rest')

/-- The outer loop of lines 154-164: the flat `value_list` is consumed in
data-type order, `addresses.length` values per type, producing the `values`
mapping alongside each type's address list. -/
def assign_values : List (DataType × List Int) → List Int →
    Except PyExc (List (DataType × List Int × List Int))
  | [], _ => .ok []
  | (dt, addrs) :: rest, value_list => do
    let mine ← validate_dt dt (value_list.take addrs.length)
    let others ← assign_values rest (value_list.drop addrs.length)
    .ok ((dt, addrs, mine) :: others)

/-- The whole write validation of `main` (lines 147-164): first the count
check of lines 149-151, then the per-value checks. -/
def validate_values (data_types : List (DataType × List Int)) (value_list : List Int) :
    Except PyExc (List (DataType × List Int × List Int)) :=
  if value_list.length ≠ total_addresses data_types then .error .configError
  else assign_values data_types value_list

/-- The coil wire mapping of `main` (line 208):
`value = 0xFF00 if value == 1 else 0x0000`. -/
def coil_wire (v : Int) : Int :=
  if v = 1 then 0xFF00 else 0x0000

/-- The write-side expansion of one data type (lines 195-223): a type with
no write code is skipped with the printed notice; addresses below the base
are skipped; otherwise a work item is created carrying the wire value (coil
values pass through `coil_wire`). -/
def expand_write_dt (unit_id : Nat) (dt : DataType) (addrs vals : List Int) :
    List (WorkItem × Int) :=
  match function_code_write dt with
  | none => []
  | some _ =>
    (addrs.zip vals).filterMap (fun p =>
      if p.1 - base_address dt < 0 then none
      else some (⟨unit_id, dt, p.1, .write⟩, if dt = .coil then coil_wire p.2 else p.2))

/-- The write path of `main` for one slave: validation (lines 141-164) runs
to completion before any work item exists — and hence before any network
activity; only then are work items expanded (lines 175-223). -/
def plan_write (unit_id : Nat) (data_types : List (DataType × List Int))
    (value_list : List Int) : Except PyExc (List (WorkItem × Int)) := do
  let assigned ← validate_values data_types value_list
  .ok ((assigned.map (fun t => expand_write_dt unit_id t.1 t.2.1 t.2.2)).flatten)

/-! ## Helper lemmas -/

theorem except_bind_ok {α β : Type} (a : α) (f : α → Except PyExc β) :
    (Except.ok a : Except PyExc α) >>= f = f a := rfl

theorem except_bind_err {α β : Type} (e : PyExc) (f : α → Except PyExc β) :
    (Except.error e : Except PyExc α) >>= f = Except.error e := rfl

theorem unpack_HHHBB_function_code (r : List Nat) :
    (unpack_HHHBB r).function_code = r.getD 7 0 := rfl

theorem unpack_HHHBB_unit_id (r : List Nat) :
    (unpack_HHHBB r).unit_id = r.getD 6 0 := rfl

theorem bits_of_byte_eq (b : Nat) :
    bits_of_byte b = [b &&& 1, (b >>> 1) &&& 1, (b >>> 2) &&& 1, (b >>> 3) &&& 1,
      (b >>> 4) &&& 1, (b >>> 5) &&& 1, (b >>> 6) &&& 1, (b >>> 7) &&& 1] := by
  have h8 : List.range 8 = [0, 1, 2, 3, 4, 5, 6, 7] := by decide
  simp [bits_of_byte, h8]

theorem bits_of_data_cons (b : Nat) (rest : List Nat) :
    bits_of_data (b :: rest) = bits_of_byte b ++ bits_of_data rest := by
  simp [bits_of_data]

theorem bits_of_data_head (b : Nat) (rest : List Nat) :
    (bits_of_data (b :: rest)).getD 0 0 = b &&& 1 := by
  rw [bits_of_data_cons, bits_of_byte_eq]
  rfl

theorem bits_of_data_ne_nil (b : Nat) (rest : List Nat) :
    bits_of_data (b :: rest) ≠ [] := by
  rw [bits_of_data_cons, bits_of_byte_eq]
  simp

theorem run_batch_foldl (l : List (WorkItem × Outcome)) (acc : List ResultRecord) :
    l.foldl (fun a p => a ++ item_records p) acc = acc ++ run_batch l := by
  induction l generalizing acc with
  | nil => simp [run_batch]
  | cons p rest ih =>
    rw [run_batch, List.foldl_cons, List.foldl_cons, ih, ih, List.nil_append,
      List.append_assoc]

theorem run_batch_cons (p : WorkItem × Outcome) (rest : List (WorkItem × Outcome)) :
    run_batch (p :: rest) = item_records p ++ run_batch rest := by
  rw [run_batch, List.foldl_cons, run_batch_foldl, List.nil_append]

theorem run_batch_append (l1 l2 : List (WorkItem × Outcome)) :
    run_batch (l1 ++ l2) = run_batch l1 ++ run_batch l2 := by
  rw [run_batch, List.foldl_append, run_batch_foldl, ← run_batch]

theorem pack_HHHBBH_ok {t p l u f a : Nat} {out : List Nat}
    (h : pack_HHHBBH t p l u f a = .ok out) :
    out = [t / 256, t % 256, p / 256, p % 256, l / 256, l % 256, u, f, a / 256, a % 256] := by
  unfold pack_HHHBBH at h
  split at h
  · injection h with h2
    exact h2.symm
  · exact absurd h (by simp)

theorem packU16_ok {v : Nat} {out : List Nat} (h : packU16 v = .ok out) :
    out = [v / 256, v % 256] := by
  unfold packU16 at h
  split at h
  · injection h with h2
    exact h2.symm
  · exact absurd h (by simp)

theorem validate_one_coil_ok_iff (v : Int) :
    validate_one .coil v = .ok v ↔ (v = 0 ∨ v = 1) := by
  unfold validate_one
  by_cases h : v = 0 ∨ v = 1
  · rw [if_neg (by simp [h]), if_neg (by simp)]
    simp [h]
  · rw [if_pos ⟨rfl, h⟩]
    simp [h]

theorem validate_one_coil_err (v : Int) (h : ¬(v = 0 ∨ v = 1)) :
    validate_one .coil v = .error .configError := by
  unfold validate_one
  rw [if_pos ⟨rfl, h⟩]

theorem validate_one_hr_ok_iff (v : Int) :
    validate_one .hr v = .ok v ↔ (0 ≤ v ∧ v ≤ 65535) := by
  unfold validate_one
  rw [if_neg (by simp)]
  by_cases h : 0 ≤ v ∧ v ≤ 65535
  · rw [if_neg (by simp [h])]
    simp [h]
  · rw [if_pos ⟨rfl, h⟩]
    simp [h]

theorem validate_one_hr_err (v : Int) (h : ¬(0 ≤ v ∧ v ≤ 65535)) :
    validate_one .hr v = .error .configError := by
  unfold validate_one
  rw [if_neg (by simp), if_pos ⟨rfl, h⟩]

theorem validate_one_ok_eq {dt : DataType} {v w : Int} (h : validate_one dt v = .ok w) :
    w = v := by
  unfold validate_one at h
  split at h
  · exact absurd h (by simp)
  · split at h
    · exact absurd h (by simp)
    · injection h with h2
      exact h2.symm

theorem validate_one_err_eq {dt : DataType} {v : Int} {e : PyExc}
    (h : validate_one dt v = .error e) : e = .configError := by
  unfold validate_one at h
  split at h
  · injection h with h2
    exact h2.symm
  · split at h
    · injection h with h2
      exact h2.symm
    · exact absurd h (by simp)

theorem validate_dt_ok {dt : DataType} {vs out : List Int}
    (h : validate_dt dt vs = .ok out) :
    out = vs ∧ ∀ v ∈ vs, validate_one dt v = .ok v := by
  induction vs generalizing out with
  | nil =>
    unfold validate_dt at h
    injection h with h2
    exact ⟨h2.symm, by simp⟩
  | cons v rest ih =>
    unfold validate_dt at h
    rcases h1 : validate_one dt v with e | v'
    · rw [h1, except_bind_err] at h
      exact absurd h (by simp)
    · rw [h1, except_bind_ok] at h
      rcases h2 : validate_dt dt rest with e | rest'
      · rw [h2, except_bind_err] at h
        exact absurd h (by simp)
      · rw [h2, except_bind_ok] at h
        injection h with h3
        obtain ⟨hr1, hr2⟩ := ih h2
        have hv : v' = v := validate_one_ok_eq h1
        refine ⟨by rw [← h3, hv, hr1], ?_⟩
        intro w hw
        rcases List.mem_cons.mp hw with rfl | hw2
        · rw [hv] at h1
          exact h1
        · exact hr2 w hw2

theorem validate_dt_err_of_mem {dt : DataType} {vs : List Int} {v : Int} (hv : v ∈ vs)
    (herr : validate_one dt v = .error .configError) :
    validate_dt dt vs = .error .configError := by
  induction vs with
  | nil => simp at hv
  | cons w rest ih =>
    unfold validate_dt
    rcases List.mem_cons.mp hv with rfl | hv2
    · rw [herr, except_bind_err]
    · rcases h1 : validate_one dt w with e | w'
      · have he := validate_one_err_eq h1
        subst he
        rw [except_bind_err]
      · rw [except_bind_ok, ih hv2, except_bind_err]

theorem assign_values_ok {dts : List (DataType × List Int)} {vl : List Int}
    {out : List (DataType × List Int × List Int)} (h : assign_values dts vl = .ok out) :
    ∀ t ∈ out, ∀ v ∈ t.2.2, validate_one t.1 v = .ok v := by
  induction dts generalizing vl out with
  | nil =>
    unfold assign_values at h
    injection h with h2
    rw [← h2]
    simp
  | cons p rest ih =>
    obtain ⟨dt, addrs⟩ := p
    unfold assign_values at h
    rcases h1 : validate_dt dt (vl.take addrs.length) with e | mine
    · rw [h1, except_bind_err] at h
      exact absurd h (by simp)
    · rw [h1, except_bind_ok] at h
      rcases h2 : assign_values rest (vl.drop addrs.length) with e | others
      · rw [h2, except_bind_err] at h
        exact absurd h (by simp)
      · rw [h2, except_bind_ok] at h
        injection h with h3
        intro t ht
        rw [← h3] at ht
        rcases List.mem_cons.mp ht with rfl | ht2
        · obtain ⟨he, hall⟩ := validate_dt_ok h1
          intro v hv
          exact hall v (he ▸ hv)
        · exact ih h2 t ht2

theorem expand_write_dt_mem {u : Nat} {dt : DataType} {addrs vals : List Int}
    {p : WorkItem × Int} (hp : p ∈ expand_write_dt u dt addrs vals) :
    p.1.op = .write ∧ (p.1.data_type = .coil → p.2 = 0xFF00 ∨ p.2 = 0) := by
  unfold expand_write_dt at hp
  rcases hw : function_code_write dt with _ | fc
  · rw [hw] at hp
    simp at hp
  · rw [hw] at hp
    rw [List.mem_filterMap] at hp
    obtain ⟨q, hq, hfq⟩ := hp
    by_cases hneg : q.1 - base_address dt < 0
    · rw [if_pos hneg] at hfq
      exact absurd hfq (by simp)
    · rw [if_neg hneg] at hfq
      injection hfq with h2
      subst h2
      refine ⟨rfl, ?_⟩
      intro hc
      have hc' : dt = .coil := hc
      subst hc'
      rw [if_pos rfl]
      unfold coil_wire
      by_cases h1 : q.2 = 1
      · rw [if_pos h1]
        left
        rfl
      · rw [if_neg h1]
        right
        rfl

/-! ## Claims -/

/-- C8 counterexample: a holding-register read with a usable 1-byte payload
(`[7]`) appends NO record at all — it is not treated as a failure: the
Failed branch is not taken and nothing is recorded. -/
theorem C8_counterexample_one_byte_silent :
    (read_or_write_data 1 .hr 40001 .read (.returns [0, 0, 0, 0, 0, 4, 1, 3, 1, 7])).1 =
      [] := rfl

/-- C8 amended: for every holding-register or input-register read whose
usable payload has at least 2 bytes, the reported value is the big-endian
16-bit unsigned integer formed from the payload's first two bytes (both
tools); a usable payload of exactly 1 byte produces no record at all in
either tool — it is silently dropped rather than recorded as Failed. -/
theorem C8_register_value_big_endian :
    (∀ (u : Nat) (dt : DataType) (la : Int) (r d : List Nat), (dt = .hr ∨ dt = .ir) →
      parse_modbus_response r = .ok (some d) → 2 ≤ d.length →
      (read_or_write_data u dt la .read (.returns r)).1 =
        [⟨u, dt, la, .readValue (unpack_be16 d)⟩]) ∧
    (∀ (u : Nat) (dt : DataType) (la : Int) (r d : List Nat), (dt = .hr ∨ dt = .ir) →
      parse_modbus_response r = .ok (some d) → d.length = 1 →
      (read_or_write_data u dt la .read (.returns r)).1 = []) ∧
    (∀ (u : Nat) (dt : DataType) (la : Int) (r d : List Nat), (dt = .hr ∨ dt = .ir) →
      parse_modbus_response_enum r = some d → 2 ≤ d.length →
      (read_data u dt la (.returns r)).1 = [⟨u, dt, la, .readValue (unpack_be16 d)⟩]) ∧
    (∀ (u : Nat) (dt : DataType) (la : Int) (r d : List Nat), (dt = .hr ∨ dt = .ir) →
      parse_modbus_response_enum r = some d → d.length = 1 →
      (read_data u dt la (.returns r)).1 = []) := by
  refine ⟨?_, ?_, ?_, ?_⟩
  · intro u dt la r d hdt h h2
    have htr : truthy (some d) = true := by
      cases d with
      | nil => simp at h2
      | cons b rs => simp [truthy]
    rcases hdt with rfl | rfl <;>
      simp [read_or_write_data, worker_body, h, except_bind_ok, htr, rw_read_records, h2]
  · intro u dt la r d hdt h h1
    have htr : truthy (some d) = true := by
      cases d with
      | nil => simp at h1
      | cons b rs => simp [truthy]
    have hn : ¬ 2 ≤ d.length := by omega
    rcases hdt with rfl | rfl <;>
      simp [read_or_write_data, worker_body, h, except_bind_ok, htr, rw_read_records, hn]
  · intro u dt la r d hdt h h2
    have he : d.isEmpty = false := by
      cases d with
      | nil => simp at h2
      | cons b rs => rfl
    rcases hdt with rfl | rfl <;> simp [read_data, h, he, h2]
  · intro u dt la r d hdt h h1
    have he : d.isEmpty = false := by
      cases d with
      | nil => simp at h1
      | cons b rs => rfl
    have hn : ¬ 2 ≤ d.length := by omega
    rcases hdt with rfl | rfl <;> simp [read_data, h, he, hn]

/-- C8 witness: a 2-byte payload `[0, 42]` reports the big-endian value. -/
theorem C8_register_value_big_endian_witness :
    (read_or_write_data 1 .hr 40001 .read (.returns [0, 1, 0, 0, 0, 5, 1, 3, 2, 0, 42])).1 =
      [⟨1, .hr, 40001, .readValue (unpack_be16 [0, 42])⟩] :=
  C8_register_value_big_endian.1 1 .hr 40001 [0, 1, 0, 0, 0, 5, 1, 3, 2, 0, 42] [0, 42]
    (Or.inl rfl) rfl (by decide)

/-- C10: For every non-empty payload, the enumeration tool's bit extraction
(expanding every payload byte into bits least-significant-bit first and
taking the first bit of the resulting list) computes the same bit as the
read/write tool's expression `data[0] & 0x01`, namely bit 0 of the first
payload byte; consequently, on a payload both tools decode identically, the
coil/discrete-input records they append agree. -/
theorem C10_bit_extraction_agrees :
    (∀ data : List Nat, data ≠ [] →
      bits_of_data data ≠ [] ∧
      (bits_of_data data).getD 0 0 = data.getD 0 0 &&& 0x01 ∧
      data.getD 0 0 &&& 0x01 = data.getD 0 0 % 2) ∧
    (∀ (u : Nat) (la : Int) (r d : List Nat),
      parse_modbus_response r = .ok (some d) →
      parse_modbus_response_enum r = some d →
      d ≠ [] →
      (read_data u .coil la (.returns r)).1 =
        (read_or_write_data u .coil la .read (.returns r)).1) := by
  constructor
  · intro data hd
    match data with
    | b :: rest =>
      refine ⟨bits_of_data_ne_nil b rest, ?_, ?_⟩
      · rw [bits_of_data_head]
        rfl
      · exact Nat.and_one_is_mod _
  · intro u la r d h1 h2 hd
    match d, hd with
    | b :: rest, _ =>
      have htr : truthy (some (b :: rest)) = true := by simp [truthy]
      have hb : (bits_of_data (b :: rest)).isEmpty = false := by
        rw [bits_of_data_cons, bits_of_byte_eq]
        rfl
      have hed : (read_data u .coil la (.returns r)).1 =
          [⟨u, .coil, la, .readBit ((bits_of_data (b :: rest)).getD 0 0)⟩] := by
        simp [read_data, h2, hb]
      have hrw : (read_or_write_data u .coil la .read (.returns r)).1 =
          [⟨u, .coil, la, .readBit ((b :: rest).getD 0 0 &&& 0x01)⟩] := by
        simp [read_or_write_data, worker_body, h1, except_bind_ok, htr, rw_read_records]
      rw [hed, hrw, bits_of_data_head]
      rfl

/-- C10 witness: on the concrete payload `[5]` the first extracted bit is
`5 & 1`. -/
theorem C10_bit_extraction_agrees_witness :
    bits_of_data [5] ≠ [] ∧
    (bits_of_data [5]).getD 0 0 = [5].getD 0 0 &&& 0x01 ∧
    [5].getD 0 0 &&& 0x01 = [5].getD 0 0 % 2 :=
  C10_bit_extraction_agrees.1 [5] (by decide)

/-- C4: for every request that the read/write encoder accepts (any accepted
request has one of the function codes 1-6), parsing the produced frame with
the decoder's header unpacking (the `struct.unpack('>HHHBB', ...)` step of
`parse_modbus_response`, which a frame of length ≥ 8 always reaches)
recovers the function code and unit id exactly. -/
theorem C4_encode_decode_roundtrip (t u f a : Nat) (value : Option Nat) (c : Nat)
    (frame : List Nat) (h : build_modbus_request t u f a value c = .ok frame) :
    8 ≤ frame.length ∧ (unpack_HHHBB frame).unit_id = u ∧
      (unpack_HHHBB frame).function_code = f := by
  cases value with
  | none =>
    simp only [build_modbus_request] at h
    by_cases hf : f = 1 ∨ f = 2 ∨ f = 3 ∨ f = 4
    · rw [if_pos hf] at h
      rcases hp : pack_HHHBBH t 0 6 u f a with e | head
      · rw [hp, except_bind_err] at h
        exact absurd h (by simp)
      · rw [hp, except_bind_ok] at h
        rcases hq : packU16 c with e | tail
        · rw [hq, except_bind_err] at h
          exact absurd h (by simp)
        · rw [hq, except_bind_ok] at h
          injection h with h2
          subst h2
          rw [pack_HHHBBH_ok hp, packU16_ok hq]
          exact ⟨by simp, rfl, rfl⟩
    · rw [if_neg hf] at h
      exact absurd h (by simp)
  | some v =>
    simp only [build_modbus_request] at h
    by_cases hf : f = 5 ∨ f = 6
    · rw [if_pos hf] at h
      rcases hp : pack_HHHBBH t 0 6 u f a with e | head
      · rw [hp, except_bind_err] at h
        exact absurd h (by simp)
      · rw [hp, except_bind_ok] at h
        rcases hq : packU16 v with e | tail
        · rw [hq, except_bind_err] at h
          exact absurd h (by simp)
        · rw [hq, except_bind_ok] at h
          injection h with h2
          subst h2
          rw [pack_HHHBBH_ok hp, packU16_ok hq]
          exact ⟨by simp, rfl, rfl⟩
    · rw [if_neg hf] at h
      exact absurd h (by simp)

/-- C4 witness: the concrete read request (transaction 1, unit 2, function
code 3, address 9) round-trips its unit id and function code. -/
theorem C4_encode_decode_roundtrip_witness :
    8 ≤ ([0, 1, 0, 0, 0, 6, 2, 3, 0, 9, 0, 1] : List Nat).length ∧
    (unpack_HHHBB [0, 1, 0, 0, 0, 6, 2, 3, 0, 9, 0, 1]).unit_id = 2 ∧
    (unpack_HHHBB [0, 1, 0, 0, 0, 6, 2, 3, 0, 9, 0, 1]).function_code = 3 :=
  C4_encode_decode_roundtrip 1 2 3 9 none 1 [0, 1, 0, 0, 0, 6, 2, 3, 0, 9, 0, 1] rfl

/-- C5 counterexample: the enumeration tool's encoder, called with function
code 0 (outside {1,...,6}), returns a frame instead of signalling an
encoding error. -/
theorem C5_counterexample_enum_accepts :
    build_modbus_request_enum 0 0 0 0 1 = .ok [0, 0, 0, 0, 0, 6, 0, 0, 0, 0] := rfl

/-- C5 amended: the read/write encoder signals `unsupportedWriteCode`
whenever a value is supplied with a function code outside {5,6},
`unsupportedCode` whenever no value is supplied and the function code is
outside {1,2,3,4} (hence also for codes 5/6 without a value), and returns a
frame for the supported in-range combinations; the enumeration encoder
(which takes no value argument) never rejects a function code: for in-range
fields it returns a frame for every function code, merely omitting the
count field for non-read codes. -/
theorem C5_encode_error_behaviour :
    (∀ t u f a v c, ¬(f = 5 ∨ f = 6) →
      build_modbus_request t u f a (some v) c = .error .unsupportedWriteCode) ∧
    (∀ t u f a c, ¬(f = 1 ∨ f = 2 ∨ f = 3 ∨ f = 4) →
      build_modbus_request t u f a none c = .error .unsupportedCode) ∧
    (∀ t u f a v c, (f = 5 ∨ f = 6) → t < 65536 → u < 256 → a < 65536 → v < 65536 →
      ∃ frame, build_modbus_request t u f a (some v) c = .ok frame) ∧
    (∀ t u f a c, (f = 1 ∨ f = 2 ∨ f = 3 ∨ f = 4) → t < 65536 → u < 256 → a < 65536 →
      c < 65536 → ∃ frame, build_modbus_request t u f a none c = .ok frame) ∧
    (∀ t u f a c, t < 65536 → u < 256 → f < 256 → a < 65536 → c < 65536 →
      ∃ frame, build_modbus_request_enum t u f a c = .ok frame) := by
  refine ⟨?_, ?_, ?_, ?_, ?_⟩
  · intro t u f a v c hf
    simp only [build_modbus_request]
    rw [if_neg hf]
  · intro t u f a c hf
    simp only [build_modbus_request]
    rw [if_neg hf]
  · intro t u f a v c hf ht hu ha hv
    have hf256 : f < 256 := by rcases hf with h | h <;> omega
    have hpack : pack_HHHBBH t 0 6 u f a =
        .ok [t / 256, t % 256, 0 / 256, 0 % 256, 6 / 256, 6 % 256, u, f, a / 256, a % 256] := by
      unfold pack_HHHBBH
      rw [if_pos ⟨ht, by omega, by omega, hu, hf256, ha⟩]
    have hq : packU16 v = .ok [v / 256, v % 256] := by
      unfold packU16
      rw [if_pos hv]
    refine ⟨[t / 256, t % 256, 0 / 256, 0 % 256, 6 / 256, 6 % 256, u, f, a / 256, a % 256]
      ++ [v / 256, v % 256], ?_⟩
    simp only [build_modbus_request]
    rw [if_pos hf, hpack, except_bind_ok, hq, except_bind_ok]
  · intro t u f a c hf ht hu ha hc
    have hf256 : f < 256 := by rcases hf with h | h | h | h <;> omega
    have hpack : pack_HHHBBH t 0 6 u f a =
        .ok [t / 256, t % 256, 0 / 256, 0 % 256, 6 / 256, 6 % 256, u, f, a / 256, a % 256] := by
      unfold pack_HHHBBH
      rw [if_pos ⟨ht, by omega, by omega, hu, hf256, ha⟩]
    have hq : packU16 c = .ok [c / 256, c % 256] := by
      unfold packU16
      rw [if_pos hc]
    refine ⟨[t / 256, t % 256, 0 / 256, 0 % 256, 6 / 256, 6 % 256, u, f, a / 256, a % 256]
      ++ [c / 256, c % 256], ?_⟩
    simp only [build_modbus_request]
    rw [if_pos hf, hpack, except_bind_ok, hq, except_bind_ok]
  · intro t u f a c ht hu hf ha hc
    have hpack : pack_HHHBBH t 0 6 u f a =
        .ok [t / 256, t % 256, 0 / 256, 0 % 256, 6 / 256, 6 % 256, u, f, a / 256, a % 256] := by
      unfold pack_HHHBBH
      rw [if_pos ⟨ht, by omega, by omega, hu, hf, ha⟩]
    by_cases h4 : f = 1 ∨ f = 2 ∨ f = 3 ∨ f = 4
    · have hq : packU16 c = .ok [c / 256, c % 256] := by
        unfold packU16
        rw [if_pos hc]
      refine ⟨[t / 256, t % 256, 0 / 256, 0 % 256, 6 / 256, 6 % 256, u, f, a / 256, a % 256]
        ++ [c / 256, c % 256], ?_⟩
      simp only [build_modbus_request_enum]
      rw [hpack, except_bind_ok, if_pos h4, hq, except_bind_ok]
    · refine ⟨[t / 256, t % 256, 0 / 256, 0 % 256, 6 / 256, 6 % 256, u, f, a / 256, a % 256], ?_⟩
      simp only [build_modbus_request_enum]
      rw [hpack, except_bind_ok, if_neg h4]

/-- C5 witness: a value with read code 3 is rejected as an unsupported write
code, and code 5 without a value is rejected as an unsupported code. -/
theorem C5_encode_error_behaviour_witness :
    build_modbus_request 0 0 3 0 (some 1) 1 = .error .unsupportedWriteCode ∧
    build_modbus_request 0 0 5 0 none 1 = .error .unsupportedCode :=
  ⟨C5_encode_error_behaviour.1 0 0 3 0 1 1 (by decide),
   C5_encode_error_behaviour.2.1 0 0 5 0 1 (by decide)⟩

/-- C3 counterexample: on the 8-byte input `[0,0,0,0,0,2,1,3]` (function
code 3, a read code), the read/write decoder raises an `IndexError` instead
of returning a payload or `None`, so it is neither total nor does it
tolerate every 8-byte input. -/
theorem C3_counterexample_rw_indexerror :
    parse_modbus_response [0, 0, 0, 0, 0, 2, 1, 3] = .error .indexError := rfl

/-- C3 amended: both decoders return `None` when the input is shorter than
8 bytes (read/write variant, which checks < 8) resp. 9 bytes (enumeration
variant) or when the function-code byte is ≥ 0x80; the enumeration variant
is total; the read/write variant raises (an `IndexError`, caught by the
worker's blanket handler) exactly when the input has exactly 8 bytes and a
read function code 1-4, and tolerates exactly 8 bytes for write codes 5/6,
where it returns an empty payload. -/
theorem C3_decode_fails_closed :
    (∀ r : List Nat, r.length < 8 → parse_modbus_response r = .ok none) ∧
    (∀ r : List Nat, 0x80 ≤ r.getD 7 0 → parse_modbus_response r = .ok none) ∧
    (∀ r : List Nat,
      (∃ e, parse_modbus_response r = .error e) ↔
        r.length = 8 ∧
          (r.getD 7 0 = 1 ∨ r.getD 7 0 = 2 ∨ r.getD 7 0 = 3 ∨ r.getD 7 0 = 4)) ∧
    (∀ r : List Nat, r.length = 8 → (r.getD 7 0 = 5 ∨ r.getD 7 0 = 6) →
      parse_modbus_response r = .ok (some [])) ∧
    (∀ r : List Nat, r.length < 9 → parse_modbus_response_enum r = none) ∧
    (∀ r : List Nat, 0x80 ≤ r.getD 7 0 → parse_modbus_response_enum r = none) := by
  refine ⟨?_, ?_, ?_, ?_, ?_, ?_⟩
  · intro r hl
    unfold parse_modbus_response
    rw [if_pos hl]
  · intro r hf
    by_cases hl : r.length < 8
    · unfold parse_modbus_response
      rw [if_pos hl]
    · have hf' : 0x80 ≤ (unpack_HHHBB r).function_code := by
        rw [unpack_HHHBB_function_code]
        exact hf
      unfold parse_modbus_response
      rw [if_neg hl, if_pos hf']
  · intro r
    constructor
    · rintro ⟨e, he⟩
      unfold parse_modbus_response at he
      by_cases hl : r.length < 8
      · rw [if_pos hl] at he
        exact absurd he (by simp)
      · rw [if_neg hl] at he
        by_cases hf : 0x80 ≤ (unpack_HHHBB r).function_code
        · rw [if_pos hf] at he
          exact absurd he (by simp)
        · rw [if_neg hf] at he
          by_cases hf1 : (unpack_HHHBB r).function_code = 1 ∨
              (unpack_HHHBB r).function_code = 2 ∨ (unpack_HHHBB r).function_code = 3 ∨
              (unpack_HHHBB r).function_code = 4
          · rw [if_pos hf1] at he
            by_cases h8 : 8 < r.length
            · rw [if_pos h8] at he
              exact absurd he (by simp)
            · rw [unpack_HHHBB_function_code] at hf1
              exact ⟨by omega, hf1⟩
          · rw [if_neg hf1] at he
            by_cases hf56 : (unpack_HHHBB r).function_code = 5 ∨
                (unpack_HHHBB r).function_code = 6
            · rw [if_pos hf56] at he
              exact absurd he (by simp)
            · rw [if_neg hf56] at he
              exact absurd he (by simp)
    · rintro ⟨hlen, hfc⟩
      have hl : ¬ r.length < 8 := by omega
      have h8 : ¬ 8 < r.length := by omega
      have hfc1 : (unpack_HHHBB r).function_code = 1 ∨ (unpack_HHHBB r).function_code = 2 ∨
          (unpack_HHHBB r).function_code = 3 ∨ (unpack_HHHBB r).function_code = 4 := by
        rw [unpack_HHHBB_function_code]
        exact hfc
      have hfc0 : ¬ 0x80 ≤ (unpack_HHHBB r).function_code := by
        rw [unpack_HHHBB_function_code]
        rcases hfc with h | h | h | h <;> omega
      refine ⟨.indexError, ?_⟩
      unfold parse_modbus_response
      rw [if_neg hl, if_neg hfc0, if_pos hfc1, if_neg h8]
  · intro r hlen hfc
    have hl : ¬ r.length < 8 := by omega
    have hfc1 : ¬ ((unpack_HHHBB r).function_code = 1 ∨ (unpack_HHHBB r).function_code = 2 ∨
        (unpack_HHHBB r).function_code = 3 ∨ (unpack_HHHBB r).function_code = 4) := by
      rw [unpack_HHHBB_function_code]
      rcases hfc with h | h <;> omega
    have hfc0 : ¬ 0x80 ≤ (unpack_HHHBB r).function_code := by
      rw [unpack_HHHBB_function_code]
      rcases hfc with h | h <;> omega
    have hfc56 : (unpack_HHHBB r).function_code = 5 ∨ (unpack_HHHBB r).function_code = 6 := by
      rw [unpack_HHHBB_function_code]
      exact hfc
    have hdrop : r.drop 8 = [] := by
      apply List.drop_eq_nil_of_le
      omega
    unfold parse_modbus_response
    rw [if_neg hl, if_neg hfc0, if_neg hfc1, if_pos hfc56, hdrop]
    rfl
  · intro r hl
    unfold parse_modbus_response_enum
    rw [if_pos hl]
  · intro r hf
    by_cases hl : r.length < 9
    · unfold parse_modbus_response_enum
      rw [if_pos hl]
    · have hf' : 0x80 ≤ (unpack_HHHBB r).function_code := by
        rw [unpack_HHHBB_function_code]
        exact hf
      unfold parse_modbus_response_enum
      rw [if_neg hl, if_pos hf']

/-- C3 witness: the amended theorem applied to the concrete 3-byte input. -/
theorem C3_decode_fails_closed_witness :
    parse_modbus_response [1, 2, 3] = .ok none :=
  C3_decode_fails_closed.1 [1, 2, 3] (by decide)

/-- C7: write validation runs before any work item (and hence any network
activity) exists: a value count different from the total number of selected
addresses aborts the run, a coil value outside {0,1} or a holding-register
value outside [0,65535] is rejected (and any such value aborts the whole
per-type validation); after successful validation every planned coil write
carries wire value 0xFF00 (for 1) or 0x0000 (for 0), `coil_wire` mapping 1
to 0xFF00 and 0 to 0x0000. -/
theorem C7_write_validation :
    (∀ v : Int, (validate_one .coil v = .ok v ↔ (v = 0 ∨ v = 1)) ∧
      (¬(v = 0 ∨ v = 1) → validate_one .coil v = .error .configError)) ∧
    (∀ v : Int, (validate_one .hr v = .ok v ↔ (0 ≤ v ∧ v ≤ 65535)) ∧
      (¬(0 ≤ v ∧ v ≤ 65535) → validate_one .hr v = .error .configError)) ∧
    (∀ (dt : DataType) (vs : List Int) (v : Int), v ∈ vs →
      validate_one dt v = .error .configError →
      validate_dt dt vs = .error .configError) ∧
    (∀ (u : Nat) (dts : List (DataType × List Int)) (vl : List Int),
      vl.length ≠ total_addresses dts → plan_write u dts vl = .error .configError) ∧
    (∀ (dts : List (DataType × List Int)) (vl : List Int)
        (out : List (DataType × List Int × List Int)),
      validate_values dts vl = .ok out → ∀ t ∈ out,
        (t.1 = .coil → ∀ v ∈ t.2.2, v = 0 ∨ v = 1) ∧
        (t.1 = .hr → ∀ v ∈ t.2.2, 0 ≤ v ∧ v ≤ 65535)) ∧
    (coil_wire 1 = 0xFF00 ∧ coil_wire 0 = 0x0000) ∧
    (∀ (u : Nat) (dts : List (DataType × List Int)) (vl : List Int)
        (items : List (WorkItem × Int)), plan_write u dts vl = .ok items →
      ∀ p ∈ items, p.1.op = .write ∧
        (p.1.data_type = .coil → p.2 = 0xFF00 ∨ p.2 = 0)) := by
  refine ⟨?_, ?_, ?_, ?_, ?_, ?_, ?_⟩
  · intro v
    exact ⟨validate_one_coil_ok_iff v, validate_one_coil_err v⟩
  · intro v
    exact ⟨validate_one_hr_ok_iff v, validate_one_hr_err v⟩
  · intro dt vs v hv herr
    exact validate_dt_err_of_mem hv herr
  · intro u dts vl hne
    have hv : validate_values dts vl = .error .configError := by
      unfold validate_values
      rw [if_pos hne]
    unfold plan_write
    rw [hv, except_bind_err]
  · intro dts vl out h t ht
    have h2 : assign_values dts vl = .ok out := by
      unfold validate_values at h
      by_cases hne : vl.length ≠ total_addresses dts
      · rw [if_pos hne] at h
        exact absurd h (by simp)
      · rw [if_neg hne] at h
        exact h
    have hall := assign_values_ok h2 t ht
    constructor
    · intro hc v hv
      have hvv := hall v hv
      rw [hc] at hvv
      exact (validate_one_coil_ok_iff v).mp hvv
    · intro hc v hv
      have hvv := hall v hv
      rw [hc] at hvv
      exact (validate_one_hr_ok_iff v).mp hvv
  · exact ⟨rfl, rfl⟩
  · intro u dts vl items h p hp
    rcases hv : validate_values dts vl with e | assigned
    · unfold plan_write at h
      rw [hv, except_bind_err] at h
      exact absurd h (by simp)
    · unfold plan_write at h
      rw [hv, except_bind_ok] at h
      injection h with h2
      rw [← h2] at hp
      rw [List.mem_flatten] at hp
      obtain ⟨l, hl, hpl⟩ := hp
      rw [List.mem_map] at hl
      obtain ⟨t, ht, rfl⟩ := hl
      exact expand_write_dt_mem hpl

/-- C7 witness: the out-of-range coil value 2 is rejected, and an empty
value list against one selected coil address aborts the run before any work
item is planned. -/
theorem C7_write_validation_witness :
    validate_one .coil 2 = .error .configError ∧
    plan_write 1 [(.coil, [1])] [] = .error .configError :=
  ⟨(C7_write_validation.1 2).2 (by decide),
   C7_write_validation.2.2.2.1 1 [(.coil, [1])] [] (by decide)⟩

/-- C2 counterexample: on a connect/send/receive/timeout exception the
socket is NOT released by the worker — `sock.close()` (line 62) sits on the
straight-line path after `recv` and there is no `finally`, so the exception
path never executes it. -/
theorem C2_counterexample_no_close_on_raise :
    (read_or_write_data 1 .hr 40001 .read .raises).2 = false := rfl

/-- C2 amended: the read/write worker closes its socket exactly when
connect, send and receive complete and the decoder returns (with any
payload, `None` included); on a transport exception, or when the decoder
raises on a malformed response, no `close` executes (the worker still
swallows the exception instead of hanging or crashing the pool). The
enumeration worker, whose decoder never raises, closes on every received
response but likewise not on a transport exception. -/
theorem C2_socket_release :
    (∀ (u : Nat) (dt : DataType) (la : Int) (op : Operation),
      (read_or_write_data u dt la op .raises).2 = false) ∧
    (∀ (u : Nat) (dt : DataType) (la : Int) (op : Operation) (r : List Nat)
        (d : Option (List Nat)), parse_modbus_response r = .ok d →
      (read_or_write_data u dt la op (.returns r)).2 = true) ∧
    (∀ (u : Nat) (dt : DataType) (la : Int) (op : Operation) (r : List Nat) (e : PyExc),
      parse_modbus_response r = .error e →
      (read_or_write_data u dt la op (.returns r)).2 = false) ∧
    (∀ (u : Nat) (dt : DataType) (la : Int), (read_data u dt la .raises).2 = false) ∧
    (∀ (u : Nat) (dt : DataType) (la : Int) (r : List Nat),
      (read_data u dt la (.returns r)).2 = true) := by
  refine ⟨?_, ?_, ?_, ?_, ?_⟩
  · intro u dt la op
    rfl
  · intro u dt la op r d h
    cases op <;> by_cases ht : truthy d <;>
      simp [read_or_write_data, worker_body, h, except_bind_ok, ht]
  · intro u dt la op r e h
    simp [read_or_write_data, worker_body, h, except_bind_err]
  · intro u dt la
    rfl
  · intro u dt la r
    rcases hpe : parse_modbus_response_enum r with _ | d
    · simp [read_data, hpe]
    · by_cases he : d.isEmpty
      · simp [read_data, hpe, he]
      · cases dt <;> simp [read_data, hpe, he]

/-- C2 witness: a decode fault leaves the socket unclosed; a decoded
response (here with empty payload) closes it. -/
theorem C2_socket_release_witness :
    (read_or_write_data 1 .hr 40001 .read (.returns [0, 0, 0, 0, 0, 2, 1, 3])).2 = false ∧
    (read_or_write_data 1 .hr 40001 .read (.returns [0, 0, 0, 0, 0, 3, 1, 3, 0])).2 = true :=
  ⟨C2_socket_release.2.2.1 1 .hr 40001 .read [0, 0, 0, 0, 0, 2, 1, 3] .indexError rfl,
   C2_socket_release.2.1 1 .hr 40001 .read [0, 0, 0, 0, 0, 3, 1, 3, 0] (some []) rfl⟩

/-- C1 counterexample: a transport failure (e.g. a connection timeout) for
input register 30005 appends NO record at all — in particular no Failed
record — because `except Exception: pass` suppresses it. -/
theorem C1_counterexample_timeout_no_record :
    (read_or_write_data 7 .ir 30005 .read .raises).1 = [] := rfl

/-- C1 amended: a work item whose exchange raises a connect/send/receive/
timeout error appends no record in either tool (the exception is swallowed,
never propagated or retried); the read/write tool appends a Failed record
exactly when a response was received but decoded to no usable data; and a
batch is the independent concatenation of its items' records, so one item's
outcome cannot affect the records of any other item. -/
theorem C1_transport_failure_contained :
    (∀ (u : Nat) (dt : DataType) (la : Int) (op : Operation),
      (read_or_write_data u dt la op .raises).1 = []) ∧
    (∀ (u : Nat) (dt : DataType) (la : Int), (read_data u dt la .raises).1 = []) ∧
    (∀ (u : Nat) (dt : DataType) (la : Int) (op : Operation) (r : List Nat)
        (d : Option (List Nat)), parse_modbus_response r = .ok d → truthy d = false →
      (read_or_write_data u dt la op (.returns r)).1 = [⟨u, dt, la, .failed⟩]) ∧
    (∀ (l1 : List (WorkItem × Outcome)) (p : WorkItem × Outcome)
        (l2 : List (WorkItem × Outcome)),
      run_batch (l1 ++ p :: l2) = run_batch l1 ++ item_records p ++ run_batch l2) := by
  refine ⟨?_, ?_, ?_, ?_⟩
  · intro u dt la op
    rfl
  · intro u dt la
    rfl
  · intro u dt la op r d h ht
    cases op <;> simp [read_or_write_data, worker_body, h, except_bind_ok, ht]
  · intro l1 p l2
    rw [run_batch_append, run_batch_cons, List.append_assoc]

/-- C1 witness: a received response with an unusable decode result (unknown
function code ⇒ `None`) yields exactly one Failed record. -/
theorem C1_transport_failure_contained_witness :
    (read_or_write_data 2 .coil 3 .write (.returns [0, 0, 0, 0, 0, 2, 1, 9])).1 =
      [⟨2, .coil, 3, .failed⟩] :=
  C1_transport_failure_contained.2.2.1 2 .coil 3 .write [0, 0, 0, 0, 0, 2, 1, 9] none rfl rfl

/-- C6: the mapper subtracts the type's base (40001/30001/1/10001), selects
read codes 3/4/1/2 and write codes 6/5; `map(HoldingRegister, 40007, Read)`
gives protocol address 6 with function code 3 and `map(Coil, 1, Write)`
gives protocol address 0 with function code 5; a below-base logical address
is skipped (no record), and a write against InputRegister or DiscreteInput
is rejected as unsupported (with the printed notice). -/
theorem C6_address_mapper :
    (base_address .hr = 40001 ∧ base_address .ir = 30001 ∧ base_address .coil = 1 ∧
      base_address .di = 10001) ∧
    (function_code_read .hr = 3 ∧ function_code_read .ir = 4 ∧
      function_code_read .coil = 1 ∧ function_code_read .di = 2) ∧
    (function_code_write .hr = some 6 ∧ function_code_write .coil = some 5 ∧
      function_code_write .ir = none ∧ function_code_write .di = none) ∧
    mapAddress .hr 40007 .read = .ok 6 3 ∧
    mapAddress .coil 1 .write = .ok 0 5 ∧
    (∀ la : Int, mapAddress .ir la .write = .unsupported ∧
      mapAddress .di la .write = .unsupported) ∧
    (∀ (dt : DataType) (la : Int), la - base_address dt < 0 →
      mapAddress dt la .read = .skipped) ∧
    (∀ (dt : DataType) (la : Int) (fc : Nat), function_code_write dt = some fc →
      la - base_address dt < 0 → mapAddress dt la .write = .skipped) ∧
    (∀ (dt : DataType) (la : Int), 0 ≤ la - base_address dt →
      mapAddress dt la .read = .ok (la - base_address dt) (function_code_read dt)) ∧
    (∀ (dt : DataType) (la : Int) (fc : Nat), function_code_write dt = some fc →
      0 ≤ la - base_address dt →
      mapAddress dt la .write = .ok (la - base_address dt) fc) := by
  refine ⟨by decide, by decide, by decide, by decide, by decide, ?_, ?_, ?_, ?_, ?_⟩
  · intro la
    exact ⟨rfl, rfl⟩
  · intro dt la h
    cases dt <;>
      (simp only [base_address] at h
       simp only [mapAddress, base_address]
       rw [if_pos h])
  · intro dt la fc hw h
    cases dt <;> simp only [function_code_write] at hw
    · simp only [base_address] at h
      simp only [mapAddress, function_code_write, base_address]
      rw [if_pos h]
    · exact absurd hw (by simp)
    · simp only [base_address] at h
      simp only [mapAddress, function_code_write, base_address]
      rw [if_pos h]
    · exact absurd hw (by simp)
  · intro dt la h
    cases dt <;>
      (simp only [base_address] at h
       simp only [mapAddress, base_address, function_code_read]
       rw [if_neg (by omega)])
  · intro dt la fc hw h
    cases dt <;> simp only [function_code_write] at hw
    · injection hw with hw2
      subst hw2
      simp only [base_address] at h
      simp only [mapAddress, function_code_write, base_address]
      rw [if_neg (by omega)]
    · exact absurd hw (by simp)
    · injection hw with hw2
      subst hw2
      simp only [base_address] at h
      simp only [mapAddress, function_code_write, base_address]
      rw [if_neg (by omega)]
    · exact absurd hw (by simp)

/-- C6 witness: a below-base holding-register read and a below-base coil
write are both skipped. -/
theorem C6_address_mapper_witness :
    mapAddress .hr 40000 .read = .skipped ∧ mapAddress .coil 0 .write = .skipped :=
  ⟨C6_address_mapper.2.2.2.2.2.2.1 .hr 40000 (by decide),
   C6_address_mapper.2.2.2.2.2.2.2.1 .coil 0 5 rfl (by decide)⟩

/-- C9: a read response whose byte-count field is 0 decodes to an empty
payload (decoding succeeds); because both callers test the payload's
truthiness, the empty payload is handled like a decode failure: the
read/write tool appends a Failed record and the enumeration tool appends no
record. -/
theorem C9_zero_byte_count (u : Nat) (dt : DataType) (la : Int) (r : List Nat)
    (h9 : 9 ≤ r.length)
    (hfc : r.getD 7 0 = 1 ∨ r.getD 7 0 = 2 ∨ r.getD 7 0 = 3 ∨ r.getD 7 0 = 4)
    (hbc : r.getD 8 0 = 0) :
    parse_modbus_response r = .ok (some []) ∧
    parse_modbus_response_enum r = some [] ∧
    (read_or_write_data u dt la .read (.returns r)).1 = [⟨u, dt, la, .failed⟩] ∧
    (read_data u dt la (.returns r)).1 = [] := by
  have hlen8 : ¬ r.length < 8 := by omega
  have hlen9 : ¬ r.length < 9 := by omega
  have h8lt : 8 < r.length := by omega
  have hfc1 : (unpack_HHHBB r).function_code = 1 ∨ (unpack_HHHBB r).function_code = 2 ∨
      (unpack_HHHBB r).function_code = 3 ∨ (unpack_HHHBB r).function_code = 4 := by
    rw [unpack_HHHBB_function_code]
    exact hfc
  have hfc0 : ¬ 0x80 ≤ (unpack_HHHBB r).function_code := by
    rw [unpack_HHHBB_function_code]
    rcases hfc with h | h | h | h <;> omega
  have hp : parse_modbus_response r = .ok (some []) := by
    unfold parse_modbus_response
    rw [if_neg hlen8, if_neg hfc0, if_pos hfc1, if_pos h8lt, hbc]
    simp
  have hpe : parse_modbus_response_enum r = some [] := by
    unfold parse_modbus_response_enum
    rw [if_neg hlen9, if_neg hfc0, if_pos hfc1, hbc]
    simp
  have htr : truthy (some ([] : List Nat)) = false := rfl
  refine ⟨hp, hpe, ?_, ?_⟩
  · cases dt <;> simp [read_or_write_data, worker_body, hp, except_bind_ok, htr]
  · simp [read_data, hpe]

/-- C9 witness: a concrete 9-byte holding-register response with byte count
0. -/
theorem C9_zero_byte_count_witness :
    parse_modbus_response [0, 0, 0, 0, 0, 3, 1, 3, 0] = .ok (some []) ∧
    parse_modbus_response_enum [0, 0, 0, 0, 0, 3, 1, 3, 0] = some [] ∧
    (read_or_write_data 1 .hr 40001 .read (.returns [0, 0, 0, 0, 0, 3, 1, 3, 0])).1 =
      [⟨1, .hr, 40001, .failed⟩] ∧
    (read_data 1 .hr 40001 (.returns [0, 0, 0, 0, 0, 3, 1, 3, 0])).1 = [] :=
  C9_zero_byte_count 1 .hr 40001 [0, 0, 0, 0, 0, 3, 1, 3, 0] (by decide) (by decide)
    (by decide)

end Kkmodbus
